import Mathlib

/-!
Verification development for the AST schema-extraction core
(`tasks/ast_codegen/src/schema.rs`).

The Rust source is shallowly embedded:
* proc-macro token streams become the inductive `Tok` (a token tree:
  identifiers, punctuation, literals, delimited groups);
* the `syn` parsing performed inside `expand`'s `parse_body_with` closure
  becomes explicit parsers over `List Tok`.  Each parser returns its result
  together with the remaining buffer; on failure the returned buffer reflects
  exactly the tokens consumed before the failure, mirroring `syn`'s
  `ParseBuffer` cursor semantics (primitive parses consume only on success,
  compound parses keep partial consumption);
* `Rc<RefCell<RType>>` node handles become indices into an explicit `Store`
  (an arena list of `RType`), so in-place rewrites and sharing are visible;
* `Result<T, String>` failures become `Err.err msg`; a Rust `panic!` /
  failed `assert!` / `Option::unwrap` on `None` becomes `Err.panicked msg`
  (process abort, modelled as a distinguished error value);
* filesystem access is modelled by a `world` function standing for the
  combined read-and-parse external capability, and every lifecycle operation
  reports the list of paths it read.
-/

/-- Delimiters of proc-macro token groups. -/
inductive Delim where
  | paren
  | brace
  | bracket
deriving Repr

/-- A proc-macro token tree: identifier, punctuation character, literal, or
delimited group containing a nested stream. -/
inductive Tok where
  | ident (s : String)
  | punct (c : Char)
  | lit (s : String)
  | group (d : Delim) (ts : List Tok)
deriving Repr

/-- An outer attribute `#[path(args…)]`, reduced to its leading path segment
and the remaining argument tokens (the model of `syn::Attribute`; `path()`
is the `path` field and `is_ident` is equality with it). -/
structure Attr where
  path : String
  args : List Tok
deriving Repr

/-- `syn::Visibility`: `pub`, possibly restricted (`pub(crate)` …), or
inherited (nothing written).  Parsing a visibility never fails. -/
inductive Vis where
  | publ (restriction : Option (List Tok))
  | inherited
deriving Repr

/-- `syn::Generics`, kept at token granularity: the tokens between `<` and
`>` plus an optional where-clause's predicate tokens. -/
structure Generics where
  params : List Tok := []
  whereClause : Option (List Tok) := none
deriving Repr

/-- `syn::Fields` of a variant, kept at token granularity. -/
inductive Fields where
  | unit
  | named (ts : List Tok)
  | unnamed (ts : List Tok)
deriving Repr

/-- `syn::Variant`: outer attributes, name, fields, optional discriminant
expression (token granularity). -/
structure Variant where
  attrs : List Attr
  ident : String
  fields : Fields
  discriminant : Option (List Tok)
deriving Repr

/-- `syn::ItemEnum` (the parts the source touches). -/
structure ItemEnum where
  attrs : List Attr
  vis : Vis
  ident : String
  generics : Generics
  variants : List Variant
deriving Repr

/-- `syn::ItemStruct` (the parts the source touches). -/
structure ItemStruct where
  attrs : List Attr
  vis : Vis
  ident : String
  fieldsToks : List Tok
deriving Repr

/-- `syn::ItemUse`, kept at token granularity. -/
structure ItemUse where
  tree : List Tok
deriving Repr

/-- `syn::ItemConst` (the parts the source touches). -/
structure ItemConst where
  ident : String
  rest : List Tok
deriving Repr

/-- `syn::ItemMacro`: the invocation path (as segments, so `is_ident s`
is equality with `[s]`), the optional `macro_rules!`-style name, and the
body token stream. -/
structure ItemMac where
  path : List String
  name : Option String
  tokens : List Tok
deriving Repr

/-- A top-level `syn::Item`.  Every item kind the source does not name
(functions, impls, modules, …) is collapsed into `other`, which is exactly
the set rejected by `TryFrom<Item> for RType`. -/
inductive Item where
  | enumItem (e : ItemEnum)
  | structItem (s : ItemStruct)
  | macItem (m : ItemMac)
  | useItem (u : ItemUse)
  | constItem (c : ItemConst)
  | other
deriving Repr

/-- The result of `syn::parse_file`: shebang, file attributes, items. -/
structure SynFile where
  shebang : Option String := none
  attrs : List Attr := []
  items : List Item := []
deriving Repr

/-- `Inherit`: an unresolved symbolic supertype reference, or a resolved
one carrying the contributed variants. -/
inductive Inherit where
  | unlinked (name : String)
  | linked (superName : String) (variants : List Variant)
deriving Repr

/-- `From<Ident> for Inherit`: wrap the identifier as `Unlinked`. -/
def Inherit.ofIdent (i : String) : Inherit :=
  Inherit.unlinked i

/-- `EnumMeta`: inheritance metadata of an enum node. -/
structure EnumMeta where
  inherits : List Inherit := []
deriving Repr

/-- `REnum`: an enum item plus its metadata. -/
structure REnum where
  item : ItemEnum
  meta : EnumMeta
deriving Repr

/-- `REnum::with_meta`. -/
def REnum.withMeta (item : ItemEnum) (meta : EnumMeta) : REnum :=
  ⟨item, meta⟩

/-- `StructMeta`: placeholder, no fields. -/
structure StructMeta where
deriving Repr

/-- `RStruct`: a struct item plus its (empty) metadata. -/
structure RStruct where
  item : ItemStruct
  meta : StructMeta
deriving Repr

/-- `RType`: a classified declaration node. -/
inductive RType where
  | enumTy (e : REnum)
  | structTy (s : RStruct)
  | useTy (u : ItemUse)
  | constTy (c : ItemConst)
  | macTy (m : ItemMac)
deriving Repr

/-- `TryFrom<Item> for RType`: supported kinds convert, everything else is
the `"Unsupported Item!"` error. -/
def rtypeOfItem : Item → Except String RType
  | Item.enumItem e => Except.ok (RType.enumTy ⟨e, {}⟩)
  | Item.structItem s => Except.ok (RType.structTy ⟨s, ⟨⟩⟩)
  | Item.macItem m => Except.ok (RType.macTy m)
  | Item.useItem u => Except.ok (RType.useTy u)
  | Item.constItem c => Except.ok (RType.constTy c)
  | Item.other => Except.error "Unsupported Item!"

/-- An error of the pipeline: `err` models `Result::Err(String)`, while
`panicked` models a Rust `panic!` (process abort with a message). -/
inductive Err where
  | err (msg : String)
  | panicked (msg : String)
deriving Repr

/-- The arena of shared declaration nodes: the model of the
`Rc<RefCell<RType>>` heap.  A `TypeRef` is an index into it. -/
abbrev Store := List RType

/-- Read a shared node (`type_def.borrow()`). -/
def getNode (s : Store) (i : Nat) : Option RType :=
  s.get? i

/-- Overwrite a shared node in place (`*type_def.borrow_mut() = …`). -/
def setNode (s : Store) (i : Nat) (r : RType) : Store :=
  s.set i r

/-- The keywords `syn`'s `Parse for Ident` refuses to accept as plain
identifiers. -/
def rustKeywords : List String :=
  ["abstract", "as", "async", "await", "become", "box", "break", "const",
   "continue", "crate", "do", "dyn", "else", "enum", "extern", "final",
   "fn", "for", "if", "impl", "in", "let", "loop", "macro", "match", "mod",
   "move", "mut", "override", "priv", "pub", "ref", "return", "Self",
   "self", "static", "struct", "super", "trait", "try", "type", "typeof",
   "unsafe", "unsized", "use", "virtual", "where", "while", "yield"]

/-- A lexically formed identifier token is accepted by `Ident`'s parse
exactly when it is not a keyword. -/
def validIdent (s : String) : Bool :=
  s != "" && !(rustKeywords.contains s)

/-- `input.parse::<Ident>()`: consumes one non-keyword identifier token on
success; consumes nothing on failure. -/
def parseIdentTok : List Tok → Except String String × List Tok
  | Tok.ident s :: rest =>
    if validIdent s then (Except.ok s, rest)
    else (Except.error "expected identifier", Tok.ident s :: rest)
  | ts => (Except.error "expected identifier", ts)

/-- Parsing a single punctuation token (`Token![,]`, `Token![@]`, …):
consumes it on success, nothing on failure. -/
def parsePunctTok (c : Char) : List Tok → Except String Unit × List Tok
  | Tok.punct d :: rest =>
    if d == c then (Except.ok (), rest)
    else (Except.error "expected punctuation", Tok.punct d :: rest)
  | ts => (Except.error "expected punctuation", ts)

/-- `Attribute::parse_outer`: zero or more `#[…]` groups.  On a `#` not
followed by a bracket group, or bracket content not starting with a path
identifier, the parse fails with the tokens up to the failure consumed. -/
def parseOuterAttrs : List Tok → Except String (List Attr) × List Tok
  | Tok.punct '#' :: rest =>
    match rest with
    | Tok.group Delim.bracket ats :: rest2 =>
      (match ats with
       | Tok.ident p :: args =>
         (match parseOuterAttrs rest2 with
          | (Except.ok attrs, rest3) =>
            (Except.ok ({ path := p, args := args } :: attrs), rest3)
          | (Except.error e, rest3) => (Except.error e, rest3))
       | _ => (Except.error "expected identifier", rest2))
    | _ => (Except.error "expected square brackets", rest)
  | ts => (Except.ok [], ts)

/-- `input.parse::<Visibility>()`: `pub` with an optional parenthesised
restriction, else `Inherited` without consuming anything.  Never fails. -/
def parseVis : List Tok → Vis × List Tok
  | Tok.ident "pub" :: rest =>
    (match rest with
     | Tok.group Delim.paren r :: rest2 =>
       (match r with
        | Tok.ident q :: _ =>
          if q == "crate" || q == "super" || q == "self" || q == "in" then
            (Vis.publ (some r), rest2)
          else (Vis.publ none, rest)
        | _ => (Vis.publ none, rest))
     | _ => (Vis.publ none, rest))
  | ts => (Vis.inherited, ts)

/-- Scan to the `>` matching an already-consumed `<`, tracking nesting
depth; returns the enclosed tokens and the remainder. -/
def scanAngle (depth : Nat) (acc : List Tok) : List Tok → Except String (List Tok × List Tok)
  | Tok.punct '>' :: rest =>
    if depth == 0 then Except.ok (acc.reverse, rest)
    else scanAngle (depth - 1) (Tok.punct '>' :: acc) rest
  | Tok.punct '<' :: rest => scanAngle (depth + 1) (Tok.punct '<' :: acc) rest
  | t :: rest => scanAngle depth (t :: acc) rest
  | [] => Except.error "expected angle bracket"

/-- `input.parse::<Generics>()`: `<` … `>` if present, else empty.  The
where-clause is parsed separately (as the source does). -/
def parseGenerics : List Tok → Except String Generics × List Tok
  | Tok.punct '<' :: rest =>
    (match scanAngle 0 [] rest with
     | Except.ok (inner, rest2) => (Except.ok { params := inner }, rest2)
     | Except.error e => (Except.error e, Tok.punct '<' :: rest))
  | ts => (Except.ok {}, ts)

/-- Is this token a brace-delimited group? -/
def isBraceGroup : Tok → Bool
  | Tok.group Delim.brace _ => true
  | _ => false

/-- Is this token a comma? -/
def isComma : Tok → Bool
  | Tok.punct c => c == ','
  | _ => false

/-- `input.parse::<Option<WhereClause>>()`: on a `where` keyword, consume
predicate tokens up to the opening brace of the body; else `none`. -/
def parseWhereOpt : List Tok → Option (List Tok) × List Tok
  | Tok.ident "where" :: rest =>
    let sp := rest.span (fun t => !(isBraceGroup t))
    (some sp.1, sp.2)
  | ts => (none, ts)

/-- The fields of a variant: a brace group (named), a paren group
(unnamed), or nothing (unit). -/
def parseFields : List Tok → Fields × List Tok
  | Tok.group Delim.brace fts :: rest => (Fields.named fts, rest)
  | Tok.group Delim.paren fts :: rest => (Fields.unnamed fts, rest)
  | ts => (Fields.unit, ts)

/-- `Variant::parse`: outer attributes, discarded visibility, identifier,
optional fields, optional `= <expr>` discriminant (the expression taken as
the tokens up to the next top-level comma).  On failure the returned buffer
keeps whatever the successful prefix consumed, as `syn`'s cursor does. -/
def parseVariant (ts : List Tok) : Except String Variant × List Tok :=
  match parseOuterAttrs ts with
  | (Except.error e, r) => (Except.error e, r)
  | (Except.ok attrs, ts1) =>
    let v1 := parseVis ts1
    match parseIdentTok v1.2 with
    | (Except.error e, r) => (Except.error e, r)
    | (Except.ok name, ts3) =>
      let f1 := parseFields ts3
      match f1.2 with
      | Tok.punct '=' :: ts5 =>
        let sp := ts5.span (fun t => !(isComma t))
        (match sp.1 with
         | [] => (Except.error "expected expression", ts5)
         | _ :: _ =>
           (Except.ok { attrs := attrs, ident := name, fields := f1.1, discriminant := some sp.1 },
            sp.2))
      | _ =>
        (Except.ok { attrs := attrs, ident := name, fields := f1.1, discriminant := none }, f1.2)

/-- The `while !content.is_empty()` loop of `expand`'s parse closure: try a
variant (then its mandatory following comma, `?`-propagated), otherwise try
`@` followed by the `inherit` keyword and a supertype name, otherwise
`panic!("Invalid inherit_variants usage!")`.  The fuel argument only bounds
the recursion; every iteration consumes at least one token, so
`length + 1` fuel never runs out. -/
def bodyLoop : Nat → List Tok → List Variant → List String → Except Err (List Variant × List String)
  | 0, _, _, _ => Except.error (Err.err "parser fuel exhausted")
  | _ + 1, [], vs, inhs => Except.ok (vs, inhs)
  | fuel + 1, t :: ts, vs, inhs =>
    match parseVariant (t :: ts) with
    | (Except.ok v, ts1) =>
      (match parsePunctTok ',' ts1 with
       | (Except.ok _, ts2) => bodyLoop fuel ts2 (vs ++ [v]) inhs
       | (Except.error e, _) => Except.error (Err.err e))
    | (Except.error _, tsF) =>
      match parsePunctTok '@' tsF with
      | (Except.ok _, ts1) =>
        (match parseIdentTok ts1 with
         | (Except.ok id, ts2) =>
           if id == "inherit" then
             match parseIdentTok ts2 with
             | (Except.ok name, ts3) => bodyLoop fuel ts3 vs (inhs ++ [name])
             | (Except.error e, _) => Except.error (Err.err e)
           else Except.error (Err.panicked "Invalid inherit_variants usage!")
         | (Except.error _, _) => Except.error (Err.panicked "Invalid inherit_variants usage!"))
      | (Except.error _, _) => Except.error (Err.panicked "Invalid inherit_variants usage!")

/-- The whole `parse_body_with` closure of `expand`: outer attributes,
visibility, the `enum` keyword, the enum name, generics, optional where
clause, then the braced body processed by `bodyLoop`; any tokens left after
the braced body make the overall body parse fail (as `syn`'s
`parse_body_with` requires the closure to consume the full stream). -/
def parseInheritBody (tokens : List Tok) : Except Err (ItemEnum × List String) :=
  match parseOuterAttrs tokens with
  | (Except.error e, _) => Except.error (Err.err e)
  | (Except.ok attrs, ts1) =>
    let v1 := parseVis ts1
    match v1.2 with
    | Tok.ident "enum" :: ts3 =>
      (match parseIdentTok ts3 with
       | (Except.error e, _) => Except.error (Err.err e)
       | (Except.ok name, ts4) =>
         match parseGenerics ts4 with
         | (Except.error e, _) => Except.error (Err.err e)
         | (Except.ok gens, ts5) =>
           let w1 := parseWhereOpt ts5
           match w1.2 with
           | Tok.group Delim.brace content :: ts7 =>
             (match bodyLoop (content.length + 1) content [] [] with
              | Except.error e => Except.error e
              | Except.ok (vs, inhs) =>
                match ts7 with
                | [] =>
                  Except.ok
                    ({ attrs := attrs, vis := v1.1, ident := name,
                       generics := { params := gens.params, whereClause := w1.1 },
                       variants := vs },
                     inhs)
                | _ :: _ => Except.error (Err.err "unexpected token"))
           | _ => Except.error (Err.err "expected curly braces"))
    | _ => Except.error (Err.err "expected enum")

/-- The free function `expand`: if the shared node is a macro invocation,
parse its body as the inheritance construct and replace the node in place
with the resulting enum (its inherits wrapped `Unlinked`); every other node
kind is left as is. -/
def expandNode (s : Store) (i : Nat) : Except Err Store :=
  match getNode s i with
  | some (RType.macTy m) =>
    (match parseInheritBody m.tokens with
     | Except.ok (e, inhs) =>
       Except.ok (setNode s i (RType.enumTy (REnum.withMeta e { inherits := inhs.map Inherit.ofIdent })))
     | Except.error er => Except.error er)
  | _ => Except.ok s

/-- `self.items.iter().try_for_each(expand)`: process the nodes in order,
stopping at the first failure; mutations already performed stay. -/
def expandItems (s : Store) : List Nat → Store × Option Err
  | [] => (s, none)
  | i :: rest =>
    match expandNode s i with
    | Except.ok t => expandItems t rest
    | Except.error e => (s, some e)

/-- `LOAD_ERROR`. -/
def loadError : String := "should be loaded by now!"

/-- The message of a failed `Option::unwrap()`. -/
def unwrapNoneMsg : String := "called Option::unwrap() on a None value"

/-- Split a character list at every occurrence of the separator (the
pieces keep their order; n separators give n+1 pieces). -/
def splitOnChar (c : Char) : List Char → List (List Char)
  | [] => [[]]
  | x :: xs =>
    match splitOnChar c xs with
    | [] => [[x]]
    | h :: t => if x == c then [] :: h :: t else (x :: h) :: t

/-- The path components Rust's `Path::components` yields for a
slash-separated path: empty and `.` segments are dropped. -/
def pathComponents (p : String) : List String :=
  ((splitOnChar '/' p.toList).map (fun l => String.mk l)).filter
    (fun c => c != "" && c != ".")

/-- Rust's `Path::file_name`: the last component, unless the path is empty,
is a root, or terminates in `..`. -/
def fileName (p : String) : Option String :=
  match (pathComponents p).getLast? with
  | none => none
  | some c => if c == ".." then none else some c

/-- Rejoin dot-separated pieces. -/
def joinDots : List (List Char) → List Char
  | [] => []
  | [l] => l
  | l :: rest => l ++ '.' :: joinDots rest

/-- Rust's stem-of-file-name rule: everything before the final dot, except
that a lone leading dot does not start an extension. -/
def stemOfName (n : String) : String :=
  let parts := splitOnChar '.' n.toList
  if parts.length == 1 then n
  else if (match n.toList with | '.' :: _ => true | _ => false) && parts.length == 2 then n
  else String.mk (joinDots parts.dropLast)

/-- Rust's `Path::file_stem`. -/
def fileStem (p : String) : Option String :=
  (fileName p).map stemOfName

/-- `Module` of the source (named `RModule` here since Mathlib taken the name): the per-file unit of work.  `items` are indices of shared
nodes in the `Store`. -/
structure RModule where
  path : String
  module : String
  shebang : Option String := none
  attrs : List Attr := []
  items : List Nat := []
  loaded : Bool := false
deriving Repr

/-- `Module::with_path`: derive the module name from the path's file stem
with an unchecked `unwrap` — a stem-less path is a panic, modelled as the
`panicked` outcome. -/
def RModule.withPath (path : String) : Except Err RModule :=
  match fileStem path with
  | some stem => Except.ok { path := path, module := stem }
  | none => Except.error (Err.panicked unwrapNoneMsg)

/-- `From<PathBuf> for Module`: delegates to `with_path`. -/
def RModule.fromPath (path : String) : Except Err RModule :=
  RModule.withPath path

/-- The external read-and-parse capability (`File::open` + `read_to_string`
+ `parse_file` combined): a path either yields a parsed file or a
descriptive error message. -/
abbrev World := String → Except String SynFile

/-- The outcome of one lifecycle operation: the store afterwards, the
paths read from the filesystem, and the result or error. -/
structure OpResult (α : Type) where
  store : Store
  reads : List String
  result : Except Err α

/-- The filter of `Module::load`: imports and constants pass through
unconditionally; macro invocations only under the reserved name
`inherit_variants`; enums and structs only when tagged `visited_node`;
everything else is dropped. -/
def keepItem : Item → Bool
  | Item.useItem _ => true
  | Item.constItem _ => true
  | Item.macItem m => m.path == ["inherit_variants"]
  | Item.enumItem e => e.attrs.any (fun a => a.path == "visited_node")
  | Item.structItem s => s.attrs.any (fun a => a.path == "visited_node")
  | Item.other => false

/-- `Module::load`: assert not already loaded (a second call is a panic),
read and parse the file, filter the items with `keepItem`, convert each
survivor to a declaration node, allocate the nodes as fresh shared handles
(appended to the store), and mark the module loaded. -/
def RModule.loadM (world : World) (s : Store) (m : RModule) : OpResult RModule :=
  if m.loaded then ⟨s, [], Except.error (Err.panicked "can\x27t load twice!")⟩
  else
    match world m.path with
    | Except.error e => ⟨s, [m.path], Except.error (Err.err e)⟩
    | Except.ok f =>
      match (f.items.filter keepItem).mapM rtypeOfItem with
      | Except.error e => ⟨s, [m.path], Except.error (Err.err e)⟩
      | Except.ok rts =>
        ⟨s ++ rts, [m.path],
         Except.ok { path := m.path, module := m.module, shebang := f.shebang,
                     attrs := f.attrs, items := List.range' s.length rts.length,
                     loaded := true }⟩

/-- `Module::expand`: refuse with the distinct "not loaded" error when the
module was never loaded, else run the single-node expander over every item
in order, stopping at the first failure.  Reads nothing from the
filesystem (the `world` is ignored and the read trace is empty). -/
def RModule.expandM (_world : World) (s : Store) (m : RModule) : OpResult RModule :=
  if !m.loaded then ⟨s, [], Except.error (Err.err loadError)⟩
  else
    match expandItems s m.items with
    | (t, none) => ⟨t, [], Except.ok m⟩
    | (t, some e) => ⟨t, [], Except.error e⟩

/-- Modelled from the spec: the repository's `TypeDef` type lives outside
this file (it is only imported here from the crate root).  Per the spec it
carries the exported form of an enum or struct declaration. -/
inductive TypeDef where
  | enumDef (e : REnum)
  | structDef (s : RStruct)
deriving Repr

/-- Modelled from the spec: the `Into<Option<TypeDef>>` conversion used by
`Module::build` also lives outside this file.  Per §4.3 of the spec, only
`EnumType` / `StructType` nodes yield a definition; every pass-through
node (import, constant, macro invocation) yields none. -/
def typeDefOf : RType → Option TypeDef
  | RType.enumTy e => some (TypeDef.enumDef e)
  | RType.structTy s => some (TypeDef.structDef s)
  | RType.useTy _ => none
  | RType.constTy _ => none
  | RType.macTy _ => none

/-- `Definitions`: the ordered list of exported type definitions. -/
structure Definitions where
  types : List TypeDef
deriving Repr

/-- `Schema`: the exported artifact, source path plus definitions. -/
structure Schema where
  source : String
  definitions : Definitions
deriving Repr

/-- `Module::build`: refuse with the "not loaded" error when never loaded,
else project the declaration nodes through the `Option<TypeDef>` conversion
in order.  Reads nothing from the filesystem. -/
def RModule.buildM (_world : World) (s : Store) (m : RModule) : OpResult Schema :=
  if !m.loaded then ⟨s, [], Except.error (Err.err loadError)⟩
  else
    ⟨s, [],
     Except.ok { source := m.path,
                 definitions := { types := m.items.filterMap (fun i => (getNode s i).bind typeDefOf) } }⟩

/-- A unit variant with no attributes and no discriminant, as produced for
a plain `Name,` entry of a construct body. -/
def unitVariant (n : String) : Variant :=
  { attrs := [], ident := n, fields := Fields.unit, discriminant := none }

/-- The token stream of `enum <name> { <content> }`. -/
def enumBodyToks (en : String) (content : List Tok) : List Tok :=
  [Tok.ident "enum", Tok.ident en, Tok.group Delim.brace content]

/-- One element of an inheritance-construct body: an ordinary (unit)
variant definition or an `@inherit <Name>` marker. -/
inductive BodyElem where
  | variantElem (name : String)
  | inheritElem (name : String)
deriving Repr

/-- Surface syntax of one body element, with the comma convention the
parser requires: a variant is followed by its comma, a marker is not. -/
def renderElem : BodyElem → List Tok
  | BodyElem.variantElem n => [Tok.ident n, Tok.punct ',']
  | BodyElem.inheritElem n => [Tok.punct '@', Tok.ident "inherit", Tok.ident n]

/-- Surface syntax of a whole construct body. -/
def renderBody : List BodyElem → List Tok
  | [] => []
  | e :: rest => renderElem e ++ renderBody rest

/-- The variant names of a body, in source order. -/
def variantNames : List BodyElem → List String
  | [] => []
  | BodyElem.variantElem n :: rest => n :: variantNames rest
  | BodyElem.inheritElem _ :: rest => variantNames rest

/-- The inherit-marker names of a body, in source order. -/
def inheritNames : List BodyElem → List String
  | [] => []
  | BodyElem.variantElem _ :: rest => inheritNames rest
  | BodyElem.inheritElem n :: rest => n :: inheritNames rest

/-- A body element is well formed when its name is a plain non-keyword
identifier. -/
def elemValid : BodyElem → Bool
  | BodyElem.variantElem n => validIdent n
  | BodyElem.inheritElem n => validIdent n

/-- Is this (possibly absent) shared node a macro-invocation placeholder? -/
def isMacNode : Option RType → Bool
  | some (RType.macTy _) => true
  | _ => false

/-- Is this node a genuine type declaration (enum or struct)? -/
def isTypeNode : RType → Bool
  | RType.enumTy _ => true
  | RType.structTy _ => true
  | _ => false

/-- The total restriction of `rtypeOfItem` to items the load filter keeps
(on `other`, which the filter drops, it returns an arbitrary node). -/
def nodeOfKept : Item → RType
  | Item.enumItem e => RType.enumTy ⟨e, {}⟩
  | Item.structItem s => RType.structTy ⟨s, ⟨⟩⟩
  | Item.macItem m => RType.macTy m
  | Item.useItem u => RType.useTy u
  | Item.constItem c => RType.constTy c
  | Item.other => RType.useTy ⟨[]⟩

/-- A world with no readable files. -/
def noWorld : World := fun _ => Except.error "No such file or directory"

/-- The construct body of the specification's example, commas exactly as
written there: `enum Foo { A, @inherit Bar, B, @inherit Baz }`. -/
def specExampleContent : List Tok :=
  [Tok.ident "A", Tok.punct ',',
   Tok.punct '@', Tok.ident "inherit", Tok.ident "Bar", Tok.punct ',',
   Tok.ident "B", Tok.punct ',',
   Tok.punct '@', Tok.ident "inherit", Tok.ident "Baz"]

/-- The spec example wrapped as an `inherit_variants!` macro node. -/
def specExampleMac : ItemMac :=
  { path := ["inherit_variants"], name := none,
    tokens := enumBodyToks "Foo" specExampleContent }

/-- The spec example's interleaving, as abstract body elements. -/
def specExampleElems : List BodyElem :=
  [BodyElem.variantElem "A", BodyElem.inheritElem "Bar",
   BodyElem.variantElem "B", BodyElem.inheritElem "Baz"]

/-- The spec example's construct rendered with the comma placement the
parser accepts: `enum Foo { A, @inherit Bar B, @inherit Baz }`. -/
def goodExampleMac : ItemMac :=
  { path := ["inherit_variants"], name := none,
    tokens := enumBodyToks "Foo" (renderBody specExampleElems) }

/-- The enum node the accepted rendering expands to. -/
def goodExampleResult : RType :=
  RType.enumTy
    { item := { attrs := [], vis := Vis.inherited, ident := "Foo",
                generics := { params := [], whereClause := none },
                variants := [unitVariant "A", unitVariant "B"] },
      meta := { inherits := [Inherit.unlinked "Bar", Inherit.unlinked "Baz"] } }

/-- A macro invocation under a name other than `inherit_variants`, with a
well-formed construct body. -/
def otherNameMac : ItemMac :=
  { path := ["foo"], name := none,
    tokens := enumBodyToks "Qux" [Tok.ident "A", Tok.punct ','] }

/-- What `expand` rewrites `otherNameMac` into. -/
def otherNameMacResult : RType :=
  RType.enumTy
    { item := { attrs := [], vis := Vis.inherited, ident := "Qux",
                generics := { params := [], whereClause := none },
                variants := [unitVariant "A"] },
      meta := { inherits := [] } }

/-- A construct body containing a bare `@foo` segment, which is neither a
variant definition nor an inherit marker. -/
def badSegmentMac : ItemMac :=
  { path := ["inherit_variants"], name := none,
    tokens := enumBodyToks "Foo" [Tok.punct '@', Tok.ident "foo"] }

/-- A `visited_node`-tagged enum declaration. -/
def taggedEnumItem : ItemEnum :=
  { attrs := [{ path := "visited_node", args := [] }], vis := Vis.publ none,
    ident := "Statement", generics := {}, variants := [unitVariant "A"] }

/-- An enum declaration without the tag. -/
def untaggedEnumItem : ItemEnum :=
  { attrs := [{ path := "derive", args := [Tok.ident "Debug"] }],
    vis := Vis.inherited, ident := "Hidden", generics := {}, variants := [] }

/-- A `visited_node`-tagged struct declaration. -/
def taggedStructItem : ItemStruct :=
  { attrs := [{ path := "visited_node", args := [] }], vis := Vis.publ none,
    ident := "Program", fieldsToks := [] }

/-- An import declaration. -/
def useItemEx : ItemUse := ⟨[Tok.ident "crate"]⟩

/-- A constant declaration. -/
def constItemEx : ItemConst := ⟨"X", [Tok.lit "0"]⟩

/-- A macro invocation under an unrelated name. -/
def otherMacItem : ItemMac := ⟨["thread_local"], none, []⟩

/-- A parsed file interleaving kept and dropped declarations. -/
def c2File : SynFile :=
  { shebang := none, attrs := [{ path := "allow", args := [] }],
    items := [Item.useItem useItemEx, Item.enumItem untaggedEnumItem,
              Item.enumItem taggedEnumItem, Item.macItem otherMacItem,
              Item.macItem goodExampleMac, Item.other,
              Item.constItem constItemEx, Item.structItem taggedStructItem] }

/-- A world serving `c2File` at every path. -/
def c2World : World := fun _ => Except.ok c2File

/-- A freshly created module (loaded flag down). -/
def c2Module : RModule := { path := "ast.rs", module := "ast" }

/-- A store of already-classified nodes of every kind. -/
def c4Store : Store :=
  [RType.enumTy ⟨taggedEnumItem, {}⟩, RType.useTy useItemEx,
   RType.structTy ⟨taggedStructItem, ⟨⟩⟩, RType.constTy constItemEx,
   RType.macTy goodExampleMac]

/-- A loaded module owning all of `c4Store`. -/
def c4Module : RModule :=
  { path := "ast.rs", module := "ast", items := [0, 1, 2, 3, 4], loaded := true }

/-- A loaded two-node module: an unexpanded placeholder and an import. -/
def c8Module : RModule :=
  { path := "ast.rs", module := "ast", items := [0, 1], loaded := true }

/-- Its store before expansion. -/
def c8Store : Store := [RType.macTy goodExampleMac, RType.useTy useItemEx]

/-- Its store after one successful expansion. -/
def c8StoreAfter : Store := [goodExampleResult, RType.useTy useItemEx]

/-- A loaded module whose single node is the invalid construct; index 1 of
the store belongs to some other module. -/
def c5Module : RModule :=
  { path := "ast.rs", module := "ast", items := [0], loaded := true }

/-- The store for the invalid-construct scenario. -/
def c5Store : Store := [RType.macTy badSegmentMac, RType.useTy useItemEx]

/-- A module still in the `Created` state. -/
def c6Module : RModule := { path := "x.rs", module := "x" }

theorem getNode_set_ne {s : Store} {i j : Nat} (r : RType) (h : i ≠ j) :
    getNode (setNode s i r) j = getNode s j := by
  simp only [getNode, setNode, List.get?_eq_getElem?]
  exact List.getElem?_set_ne h

theorem getNode_set_map (s : Store) (i : Nat) (r : RType) :
    getNode (setNode s i r) i = Function.const _ r <$> getNode s i := by
  simp only [getNode, setNode, List.get?_eq_getElem?]
  exact List.getElem?_set_self'

theorem expandNode_not_mac {s : Store} {i : Nat} (h : isMacNode (getNode s i) = false) :
    expandNode s i = Except.ok s := by
  unfold expandNode
  split
  · rename_i m hg
    rw [hg] at h
    simp [isMacNode] at h
  · rfl

theorem expandNode_ok_cases {s t : Store} {i : Nat} (h : expandNode s i = Except.ok t) :
    t = s ∨ ∃ r : REnum, t = setNode s i (RType.enumTy r) := by
  unfold expandNode at h
  split at h
  · split at h
    · exact Or.inr ⟨_, (Except.ok.inj h).symm⟩
    · exact absurd h (by simp)
  · exact Or.inl (Except.ok.inj h).symm

theorem expandNode_ok_outside {s t : Store} {i : Nat} (h : expandNode s i = Except.ok t)
    {j : Nat} (hj : j ≠ i) : getNode t j = getNode s j := by
  rcases expandNode_ok_cases h with rfl | ⟨r, rfl⟩
  · rfl
  · exact getNode_set_ne _ (Ne.symm hj)

theorem expandNode_preserves_not_mac {s t : Store} {i : Nat}
    (h : expandNode s i = Except.ok t) {k : Nat}
    (hk : isMacNode (getNode s k) = false) : isMacNode (getNode t k) = false := by
  rcases expandNode_ok_cases h with rfl | ⟨r, rfl⟩
  · exact hk
  · by_cases hik : i = k
    · subst hik
      rw [getNode_set_map]
      cases getNode s i <;> simp [isMacNode]
    · rw [getNode_set_ne _ hik]; exact hk

theorem expandNode_ok_self_not_mac {s t : Store} {i : Nat}
    (h : expandNode s i = Except.ok t) : isMacNode (getNode t i) = false := by
  unfold expandNode at h
  split at h
  · rename_i m hg
    split at h
    · rename_i e inhs hp
      rw [← Except.ok.inj h, getNode_set_map, hg]
      simp [isMacNode]
    · exact absurd h (by simp)
  · rename_i hne
    rw [← Except.ok.inj h]
    cases hg : getNode s i with
    | none => rfl
    | some r =>
      cases r with
      | macTy m => exact absurd hg (hne m)
      | enumTy e => rfl
      | structTy e => rfl
      | useTy e => rfl
      | constTy e => rfl

theorem expandItems_outside (ids : List Nat) : ∀ (s : Store) (j : Nat), j ∉ ids →
    getNode (expandItems s ids).1 j = getNode s j := by
  induction ids with
  | nil => intro s j _; rfl
  | cons i rest ih =>
    intro s j hj
    simp only [List.mem_cons, not_or] at hj
    unfold expandItems
    cases he : expandNode s i with
    | ok t =>
      simp only []
      rw [ih t j hj.2, expandNode_ok_outside he hj.1]
    | error e => rfl

theorem expandItems_preserves_not_mac (ids : List Nat) : ∀ (s t : Store),
    expandItems s ids = (t, none) → ∀ k, isMacNode (getNode s k) = false →
    isMacNode (getNode t k) = false := by
  induction ids with
  | nil =>
    intro s t h k hk
    cases h
    exact hk
  | cons i rest ih =>
    intro s t h k hk
    unfold expandItems at h
    cases he : expandNode s i with
    | ok u =>
      rw [he] at h
      exact ih u t h k (expandNode_preserves_not_mac he hk)
    | error e =>
      rw [he] at h
      exact absurd (congrArg Prod.snd h) (by simp)

theorem expandItems_ok_all_not_mac (ids : List Nat) : ∀ (s t : Store),
    expandItems s ids = (t, none) → ∀ i ∈ ids, isMacNode (getNode t i) = false := by
  induction ids with
  | nil => intro s t _ i hi; cases hi
  | cons i rest ih =>
    intro s t h j hj
    unfold expandItems at h
    cases he : expandNode s i with
    | ok u =>
      rw [he] at h
      rcases List.mem_cons.mp hj with rfl | hjr
      · exact expandItems_preserves_not_mac rest u t h j (expandNode_ok_self_not_mac he)
      · exact ih u t h j hjr
    | error e =>
      rw [he] at h
      exact absurd (congrArg Prod.snd h) (by simp)

theorem expandItems_noop (ids : List Nat) : ∀ (s : Store),
    (∀ i ∈ ids, isMacNode (getNode s i) = false) → expandItems s ids = (s, none) := by
  induction ids with
  | nil => intro s _; rfl
  | cons i rest ih =>
    intro s h
    unfold expandItems
    rw [expandNode_not_mac (h i (List.mem_cons_self i rest))]
    exact ih s (fun j hj => h j (List.mem_cons_of_mem i hj))

theorem expandItems_idem {ids : List Nat} {s t : Store}
    (h : expandItems s ids = (t, none)) : expandItems t ids = (t, none) :=
  expandItems_noop ids t (expandItems_ok_all_not_mac ids s t h)

theorem parseOuterAttrs_ident (n : String) (R : List Tok) :
    parseOuterAttrs (Tok.ident n :: R) = (Except.ok [], Tok.ident n :: R) := rfl

theorem parseVariant_at (R : List Tok) :
    parseVariant (Tok.punct '@' :: R) = (Except.error "expected identifier", Tok.punct '@' :: R) := rfl

theorem ne_pub_of_validIdent {n : String} (h : validIdent n = true) : n ≠ "pub" := by
  intro he
  subst he
  exact absurd h (by decide)

theorem parseVis_ident {n : String} (R : List Tok) (h : n ≠ "pub") :
    parseVis (Tok.ident n :: R) = (Vis.inherited, Tok.ident n :: R) := by
  unfold parseVis
  split
  · rename_i rest heq
    rw [List.cons.injEq] at heq
    exact absurd (Tok.ident.inj heq.1) h
  · rfl

theorem parseIdentTok_valid {n : String} (R : List Tok) (h : validIdent n = true) :
    parseIdentTok (Tok.ident n :: R) = (Except.ok n, R) := by
  simp [parseIdentTok, h]

theorem parseVariant_unit {n : String} (R : List Tok) (h : validIdent n = true) :
    parseVariant (Tok.ident n :: Tok.punct ',' :: R) =
      (Except.ok (unitVariant n), Tok.punct ',' :: R) := by
  unfold parseVariant
  rw [parseOuterAttrs_ident]
  dsimp only
  rw [parseVis_ident _ (ne_pub_of_validIdent h)]
  dsimp only
  rw [parseIdentTok_valid _ h]
  rfl

theorem parsePunct_self (c : Char) (R : List Tok) :
    parsePunctTok c (Tok.punct c :: R) = (Except.ok (), R) := by
  simp [parsePunctTok]

theorem renderBody_length_ge (l : List BodyElem) : l.length ≤ (renderBody l).length := by
  induction l with
  | nil => simp [renderBody]
  | cons e rest ih =>
    cases e <;> simp [renderBody, renderElem] <;> omega

theorem bodyLoop_render (l : List BodyElem) : ∀ (fuel : Nat) (vs : List Variant) (inhs : List String),
    l.length < fuel → (∀ e ∈ l, elemValid e = true) →
    bodyLoop fuel (renderBody l) vs inhs =
      Except.ok (vs ++ (variantNames l).map unitVariant, inhs ++ inheritNames l) := by
  induction l with
  | nil =>
    intro fuel vs inhs hf _
    obtain ⟨f, rfl⟩ : ∃ f, fuel = f + 1 := ⟨fuel - 1, by omega⟩
    simp [renderBody, bodyLoop, variantNames, inheritNames]
  | cons e rest ih =>
    intro fuel vs inhs hf hv
    obtain ⟨f, rfl⟩ : ∃ f, fuel = f + 1 := ⟨fuel - 1, by omega⟩
    have hrest : ∀ x ∈ rest, elemValid x = true := fun x hx => hv x (List.mem_cons_of_mem _ hx)
    have hflt : rest.length < f := by
      simp only [List.length_cons] at hf
      omega
    cases e with
    | variantElem n =>
      have hn : validIdent n = true := hv _ (List.mem_cons_self _ _)
      show bodyLoop (f + 1) (Tok.ident n :: Tok.punct ',' :: renderBody rest) vs inhs = _
      unfold bodyLoop
      rw [parseVariant_unit _ hn]
      dsimp only
      rw [parsePunct_self]
      dsimp only
      rw [ih f (vs ++ [unitVariant n]) inhs hflt hrest]
      simp [variantNames, inheritNames]
    | inheritElem n =>
      have hn : validIdent n = true := hv _ (List.mem_cons_self _ _)
      show bodyLoop (f + 1)
        (Tok.punct '@' :: Tok.ident "inherit" :: Tok.ident n :: renderBody rest) vs inhs = _
      unfold bodyLoop
      rw [parseVariant_at]
      dsimp only
      rw [parsePunct_self]
      dsimp only
      rw [parseIdentTok_valid _ (show validIdent "inherit" = true by decide)]
      dsimp only
      rw [parseIdentTok_valid _ hn]
      dsimp only
      rw [ih f vs (inhs ++ [n]) hflt hrest]
      simp [variantNames, inheritNames]

theorem parseInheritBody_render (en : String) (l : List BodyElem)
    (hen : validIdent en = true) (hl : ∀ e ∈ l, elemValid e = true) :
    parseInheritBody (enumBodyToks en (renderBody l)) =
      Except.ok
        ({ attrs := [], vis := Vis.inherited, ident := en,
           generics := { params := [], whereClause := none },
           variants := (variantNames l).map unitVariant },
         inheritNames l) := by
  unfold parseInheritBody enumBodyToks
  rw [parseOuterAttrs_ident]
  dsimp only
  rw [parseVis_ident _ (show ("enum" : String) ≠ "pub" by decide)]
  dsimp only
  split
  · rename_i ts3 heq
    obtain rfl : ts3 = [Tok.ident en, Tok.group Delim.brace (renderBody l)] := by
      injection heq with h1 h2
      exact h2.symm
    rw [parseIdentTok_valid _ hen]
    dsimp only
    rw [show parseGenerics [Tok.group Delim.brace (renderBody l)] =
      (Except.ok {}, [Tok.group Delim.brace (renderBody l)]) from rfl]
    dsimp only
    rw [show parseWhereOpt [Tok.group Delim.brace (renderBody l)] =
      (none, [Tok.group Delim.brace (renderBody l)]) from rfl]
    dsimp only
    rw [bodyLoop_render l ((renderBody l).length + 1) [] []
      (Nat.lt_succ_of_le (renderBody_length_ge l)) hl]
    simp
  · rename_i hne
    exact absurd rfl (hne [Tok.ident en, Tok.group Delim.brace (renderBody l)])

theorem mapM_rtypeOfItem_of_kept : ∀ (l : List Item), (∀ it ∈ l, keepItem it = true) →
    l.mapM rtypeOfItem = Except.ok (l.map nodeOfKept) := by
  intro l
  induction l with
  | nil => intro _; rfl
  | cons it rest ih =>
    intro h
    have hit : keepItem it = true := h it (List.mem_cons_self _ _)
    have hres := ih (fun x hx => h x (List.mem_cons_of_mem _ hx))
    cases it with
    | other => exact absurd hit (by decide)
    | enumItem e =>
      rw [List.mapM_cons, hres]
      rfl
    | structItem st =>
      rw [List.mapM_cons, hres]
      rfl
    | macItem mc =>
      rw [List.mapM_cons, hres]
      rfl
    | useItem u =>
      rw [List.mapM_cons, hres]
      rfl
    | constItem c =>
      rw [List.mapM_cons, hres]
      rfl

theorem expandM_untouched_outside (world : World) (s : Store) (m : RModule) (j : Nat)
    (hj : j ∉ m.items) : getNode (RModule.expandM world s m).store j = getNode s j := by
  unfold RModule.expandM
  cases hl : m.loaded with
  | false => rfl
  | true =>
    cases hi : expandItems s m.items with
    | mk t o =>
      cases o with
      | none =>
        have := expandItems_outside m.items s j hj
        rw [hi] at this
        exact this
      | some e =>
        have := expandItems_outside m.items s j hj
        rw [hi] at this
        exact this

/-- Claim C1, counterexample: on the specification's own example body
`enum Foo { A, @inherit Bar, B, @inherit Baz }` (with a comma after each
inherit marker, exactly as the claim writes it) the expander does not
succeed: the comma following an inherit marker matches neither a variant
nor a marker, so the body loop panics. -/
theorem c1_spec_example_body_panics :
    expandNode [RType.macTy specExampleMac] 0 =
      Except.error (Err.panicked "Invalid inherit_variants usage!") := rfl

/-- Claim C1 (corrected): for every inheritance-construct body in which
variant definitions and `@inherit <Name>` markers are interleaved in any
order — with the comma placement the parser accepts, namely a comma after
each variant and none after a marker — expansion succeeds and produces the
enum whose variant list is the variants in source order and whose inherits
list is the marker names in source order wrapped `Unlinked`, the two
orders preserved independently of the interleaving. -/
theorem c1_interleaved_expand (s : Store) (i : Nat) (mc : ItemMac) (en : String)
    (l : List BodyElem) (hm : getNode s i = some (RType.macTy mc))
    (htok : mc.tokens = enumBodyToks en (renderBody l))
    (hen : validIdent en = true) (hl : ∀ e ∈ l, elemValid e = true) :
    expandNode s i = Except.ok (setNode s i (RType.enumTy
      { item := { attrs := [], vis := Vis.inherited, ident := en,
                  generics := { params := [], whereClause := none },
                  variants := (variantNames l).map unitVariant },
        meta := { inherits := (inheritNames l).map Inherit.ofIdent } })) := by
  unfold expandNode
  rw [hm]
  dsimp only
  rw [htok, parseInheritBody_render en l hen hl]
  rfl

/-- Claim C1, witness: the example interleaving `A, @inherit Bar B,
@inherit Baz` expands to variants `[A, B]` and inherits
`[Unlinked("Bar"), Unlinked("Baz")]`. -/
theorem c1_interleaved_expand_witness :
    expandNode [RType.macTy goodExampleMac] 0 = Except.ok [goodExampleResult] :=
  c1_interleaved_expand [RType.macTy goodExampleMac] 0 goodExampleMac "Foo"
    specExampleElems rfl rfl (by decide) (by decide)

/-- Claim C2 (confirmed): on a loadable file, `Module::load` keeps exactly
the import and constant declarations (unconditionally), the macro
invocations named `inherit_variants`, and the enum/struct declarations
tagged `visited_node`, in original source order, dropping everything else
silently; the kept declarations all convert successfully and are allocated
as fresh shared nodes. -/
theorem c2_load_filter (world : World) (s : Store) (m : RModule) (f : SynFile)
    (h1 : m.loaded = false) (h2 : world m.path = Except.ok f) :
    RModule.loadM world s m =
      ⟨s ++ (f.items.filter keepItem).map nodeOfKept, [m.path],
       Except.ok { path := m.path, module := m.module, shebang := f.shebang,
                   attrs := f.attrs,
                   items := List.range' s.length ((f.items.filter keepItem).length),
                   loaded := true }⟩
    ∧ (∀ u, keepItem (Item.useItem u) = true)
    ∧ (∀ c, keepItem (Item.constItem c) = true)
    ∧ (∀ mc, keepItem (Item.macItem mc) = (mc.path == ["inherit_variants"]))
    ∧ (∀ e, keepItem (Item.enumItem e) = e.attrs.any (fun a => a.path == "visited_node"))
    ∧ (∀ st, keepItem (Item.structItem st) = st.attrs.any (fun a => a.path == "visited_node"))
    ∧ keepItem Item.other = false := by
  refine ⟨?_, fun _ => rfl, fun _ => rfl, fun _ => rfl, fun _ => rfl, fun _ => rfl, rfl⟩
  unfold RModule.loadM
  rw [h1]
  rw [h2]
  dsimp only
  rw [mapM_rtypeOfItem_of_kept (f.items.filter keepItem)
    (fun x hx => (List.mem_filter.mp hx).2)]
  dsimp only
  rw [List.length_map]
  rfl

/-- Claim C2, witness: loading a file interleaving kept and dropped
declarations keeps the import, the tagged enum, the `inherit_variants!`
invocation, the constant and the tagged struct, in source order, and drops
the untagged enum, the foreign macro invocation and the unsupported item. -/
theorem c2_load_filter_witness :
    RModule.loadM c2World [] c2Module =
      ⟨[RType.useTy useItemEx, RType.enumTy ⟨taggedEnumItem, {}⟩,
        RType.macTy goodExampleMac, RType.constTy constItemEx,
        RType.structTy ⟨taggedStructItem, ⟨⟩⟩], ["ast.rs"],
       Except.ok { path := "ast.rs", module := "ast", shebang := none,
                   attrs := [{ path := "allow", args := [] }],
                   items := [0, 1, 2, 3, 4], loaded := true }⟩ :=
  (c2_load_filter c2World [] c2Module c2File rfl rfl).1

/-- Claim C3, counterexample: the single-node `expand` does not check the
macro's invoked name — a macro invocation named `foo!` (not the reserved
`inherit_variants`) whose body parses as the construct is rewritten rather
than left untouched. -/
theorem c3_other_name_rewritten :
    (otherNameMac.path == ["inherit_variants"]) = false
    ∧ isMacNode (getNode [RType.macTy otherNameMac] 0) = true
    ∧ expandNode [RType.macTy otherNameMac] 0 = Except.ok [otherNameMacResult]
    ∧ isMacNode (getNode [otherNameMacResult] 0) = false :=
  ⟨rfl, rfl, rfl, rfl⟩

/-- Claim C3 (corrected): the single-node `expand` rewrites a declaration
node if and only if it is a macro invocation — of any invoked name, not
only the reserved `inherit_variants` — whose body parses as the
inheritance construct; every node of another kind is left completely
untouched, and a macro node whose body fails to parse produces the parse
failure instead of a rewrite. -/
theorem c3_expand_rewrites_only_macs (s : Store) (i : Nat) (r : RType)
    (h : getNode s i = some r) :
    (isMacNode (some r) = false → expandNode s i = Except.ok s)
    ∧ (∀ mc, r = RType.macTy mc →
        (∀ e inhs, parseInheritBody mc.tokens = Except.ok (e, inhs) →
          expandNode s i = Except.ok (setNode s i (RType.enumTy
            (REnum.withMeta e { inherits := inhs.map Inherit.ofIdent }))))
        ∧ (∀ er, parseInheritBody mc.tokens = Except.error er →
            expandNode s i = Except.error er)) := by
  constructor
  · intro hb
    exact expandNode_not_mac (h ▸ hb)
  · rintro mc rfl
    constructor
    · intro e inhs hp
      unfold expandNode
      rw [h]
      dsimp only
      rw [hp]
    · intro er hp
      unfold expandNode
      rw [h]
      dsimp only
      rw [hp]

/-- Claim C3, witness: a non-macro node (an import) is left untouched. -/
theorem c3_expand_rewrites_only_macs_witness :
    expandNode [RType.useTy useItemEx] 0 = Except.ok [RType.useTy useItemEx] :=
  (c3_expand_rewrites_only_macs [RType.useTy useItemEx] 0 (RType.useTy useItemEx) rfl).1 rfl

/-- Claim C4 (confirmed): on a loaded module, `Module::build` produces the
schema pairing the module's path with the definitions obtained by keeping,
in order, exactly the nodes that are enums or structs; the conversion
yields nothing for any pass-through node and something for every type
node, so no import, constant or macro-invocation node reaches the schema. -/
theorem c4_build_schema (world : World) (s : Store) (m : RModule)
    (h : m.loaded = true) :
    RModule.buildM world s m =
      ⟨s, [],
       Except.ok
         { source := m.path,
           definitions := { types := (m.items.filterMap (getNode s)).filterMap typeDefOf } }⟩
    ∧ (∀ r : RType, isTypeNode r = false → typeDefOf r = none)
    ∧ (∀ r : RType, isTypeNode r = true → (typeDefOf r).isSome = true) := by
  refine ⟨?_, ?_, ?_⟩
  · unfold RModule.buildM
    rw [h]
    rw [List.filterMap_filterMap]
    rfl
  · intro r hr
    cases r <;> simp_all [isTypeNode, typeDefOf]
  · intro r hr
    cases r <;> simp_all [isTypeNode, typeDefOf]

/-- Claim C4, witness: a store holding an enum, an import, a struct, a
constant and a macro invocation builds into a schema containing exactly
the enum and the struct, in that order. -/
theorem c4_build_schema_witness :
    RModule.buildM noWorld c4Store c4Module =
      ⟨c4Store, [],
       Except.ok
         { source := "ast.rs",
           definitions := { types := [TypeDef.enumDef ⟨taggedEnumItem, {}⟩,
                                      TypeDef.structDef ⟨taggedStructItem, ⟨⟩⟩] } }⟩ :=
  (c4_build_schema noWorld c4Store c4Module rfl).1

/-- Claim C5 (confirmed, with the failure being the modelled panic): a
construct body containing a segment that is neither a variant definition
nor an `@inherit <Name>` marker (here the bare `@foo`) makes `expand`
fail for that module, aborting with the message naming the invalid
construct, and no shared node outside that module's item list is
mutated. -/
theorem c5_invalid_segment_fails (world : World) (s : Store) (m : RModule) (i : Nat)
    (h1 : m.loaded = true) (h2 : m.items = [i])
    (h3 : getNode s i = some (RType.macTy badSegmentMac)) :
    RModule.expandM world s m =
      ⟨s, [], Except.error (Err.panicked "Invalid inherit_variants usage!")⟩
    ∧ ∀ j, j ∉ m.items → getNode (RModule.expandM world s m).store j = getNode s j := by
  have hnode : expandNode s i = Except.error (Err.panicked "Invalid inherit_variants usage!") := by
    unfold expandNode
    rw [h3]
    rfl
  have hmain : RModule.expandM world s m =
      ⟨s, [], Except.error (Err.panicked "Invalid inherit_variants usage!")⟩ := by
    unfold RModule.expandM
    rw [h1, h2]
    unfold expandItems
    rw [hnode]
    rfl
  exact ⟨hmain, fun j hj => expandM_untouched_outside world s m j hj⟩

/-- Claim C5, witness: at a concrete store whose index 1 belongs to some
other module, the failure is the panic and index 1 is untouched. -/
theorem c5_invalid_segment_fails_witness :
    (RModule.expandM noWorld c5Store c5Module =
      ⟨c5Store, [], Except.error (Err.panicked "Invalid inherit_variants usage!")⟩)
    ∧ getNode (RModule.expandM noWorld c5Store c5Module).store 1 =
        some (RType.useTy useItemEx) := by
  have h := c5_invalid_segment_fails noWorld c5Store c5Module 0 rfl rfl rfl
  exact ⟨h.1, (h.2 1 (by decide)).trans rfl⟩

/-- Claim C6 (confirmed): calling `expand` on a module still in the
`Created` state fails with the distinct "not loaded" error, for every
filesystem whatsoever, with an empty read trace and the store returned
exactly as given. -/
theorem c6_expand_unloaded (world : World) (s : Store) (m : RModule)
    (h : m.loaded = false) :
    RModule.expandM world s m = ⟨s, [], Except.error (Err.err loadError)⟩ := by
  unfold RModule.expandM
  rw [h]
  rfl

/-- Claim C6, witness: expanding a freshly created module under the empty
filesystem fails with the "not loaded" error and reads nothing. -/
theorem c6_expand_unloaded_witness :
    RModule.expandM noWorld [] c6Module = ⟨[], [], Except.error (Err.err loadError)⟩ :=
  c6_expand_unloaded noWorld [] c6Module rfl

/-- Claim C7 (confirmed): `build` on a loaded-but-unexpanded module does
not fail — only the loaded flag is checked — and any unexpanded
macro-invocation placeholder is silently absent from the schema: the
number of emitted definitions equals the number of enum/struct nodes, so
placeholders contribute nothing and no missing-expand error exists. -/
theorem c7_build_before_expand (world : World) (s : Store) (m : RModule)
    (h : m.loaded = true) :
    ∃ sch : Schema, RModule.buildM world s m = ⟨s, [], Except.ok sch⟩
      ∧ sch.definitions.types.length = (m.items.filterMap (getNode s)).countP isTypeNode := by
  refine ⟨{ source := m.path,
            definitions := { types := (m.items.filterMap (getNode s)).filterMap typeDefOf } },
          ?_, ?_⟩
  · unfold RModule.buildM
    rw [h, List.filterMap_filterMap]
    rfl
  · dsimp only
    rw [List.length_filterMap_eq_countP]
    apply List.countP_congr
    intro r _
    cases r <;> rfl

/-- Claim C7, witness: building the loaded module whose store still holds
an unexpanded placeholder succeeds, and the definition count equals the
count of genuine type nodes. -/
theorem c7_build_before_expand_witness :
    ∃ sch : Schema, RModule.buildM noWorld c4Store c4Module = ⟨c4Store, [], Except.ok sch⟩
      ∧ sch.definitions.types.length =
          ((c4Module.items.filterMap (getNode c4Store)).countP isTypeNode) :=
  c7_build_before_expand noWorld c4Store c4Module rfl

/-- Claim C8 (confirmed): a second run of the Inheritance Expander over a
node list it already processed successfully is a no-op — after success no
node is a macro invocation any more, so nothing matches and the store is
returned unchanged with the same outcome. -/
theorem c8_expand_idempotent (world : World) (s t : Store) (m m2 : RModule)
    (h : RModule.expandM world s m = ⟨t, [], Except.ok m2⟩) :
    RModule.expandM world t m2 = ⟨t, [], Except.ok m2⟩ := by
  by_cases hl : m.loaded = true
  · unfold RModule.expandM at h ⊢
    rw [hl] at h
    cases hi : expandItems s m.items with
    | mk u o =>
      rw [hi] at h
      cases o with
      | some e => simp at h
      | none =>
        have h1 : u = t := congrArg OpResult.store h
        have h2 : m = m2 := Except.ok.inj (congrArg OpResult.result h)
        subst h1
        subst h2
        rw [hl]
        rw [expandItems_idem hi]
        rfl
  · have hl' : m.loaded = false := by revert hl; cases m.loaded <;> simp
    unfold RModule.expandM at h
    rw [hl'] at h
    simp at h

/-- Claim C8, witness: re-expanding the already-expanded store of the
two-node module changes nothing and succeeds again. -/
theorem c8_expand_idempotent_witness :
    RModule.expandM noWorld c8StoreAfter c8Module =
      ⟨c8StoreAfter, [], Except.ok c8Module⟩ :=
  c8_expand_idempotent noWorld c8Store c8StoreAfter c8Module c8Module rfl

/-- Claim C9 (confirmed): calling `load` on an already-loaded module is
the assertion failure `can't load twice!` — a panic, never a silent
success or a recoverable error result, and nothing is read. -/
theorem c9_load_twice_panics (world : World) (s : Store) (m : RModule)
    (h : m.loaded = true) :
    RModule.loadM world s m = ⟨s, [], Except.error (Err.panicked "can\x27t load twice!")⟩ := by
  unfold RModule.loadM
  rw [h]
  rfl

/-- Claim C9, witness: a second `load` of the loaded module panics. -/
theorem c9_load_twice_panics_witness :
    RModule.loadM noWorld c8Store c8Module =
      ⟨c8Store, [], Except.error (Err.panicked "can\x27t load twice!")⟩ :=
  c9_load_twice_panics noWorld c8Store c8Module rfl

/-- Claim C10 (confirmed): constructing a module from a path without a
file stem panics (the unchecked `unwrap` of `file_stem`), both through
`with_path` and through the `From<PathBuf>` conversion — a panic, not a
returned error. -/
theorem c10_withpath_stemless_panics (p : String) (h : fileStem p = none) :
    RModule.withPath p = Except.error (Err.panicked unwrapNoneMsg)
    ∧ RModule.fromPath p = Except.error (Err.panicked unwrapNoneMsg) := by
  have h1 : RModule.withPath p = Except.error (Err.panicked unwrapNoneMsg) := by
    unfold RModule.withPath
    rw [h]
  exact ⟨h1, h1⟩

/-- Claim C10, witness: the empty path and the path `..` (no base-name
component) both panic, through both constructors. -/
theorem c10_withpath_stemless_panics_witness :
    (RModule.withPath "" = Except.error (Err.panicked unwrapNoneMsg))
    ∧ (RModule.fromPath "" = Except.error (Err.panicked unwrapNoneMsg))
    ∧ (RModule.withPath ".." = Except.error (Err.panicked unwrapNoneMsg))
    ∧ (RModule.fromPath ".." = Except.error (Err.panicked unwrapNoneMsg)) := by
  have ha := c10_withpath_stemless_panics "" (by decide)
  have hb := c10_withpath_stemless_panics ".." (by decide)
  exact ⟨ha.1, ha.2, hb.1, hb.2⟩
